import Mathlib

/-!
# Verification of the `mlops` core: skeleton extractor, diff mapper, test patcher

Shallow embedding of `src/context.py` (`extract_skeleton`) and
`src/smart_update.py` (`get_changed_functions`, `update_test_file`,
`get_existing_test_code`).

The Python parser (`ast.parse`) is an external stdlib collaborator; we embed
its *output* faithfully as the `Stmt` / module data model of the spec's
SourceUnit: an ordered list of top-level statements, each tagged by kind,
carrying the fields the three operations actually read (source segments,
names, decorator segments, return-annotation segments, 1-indexed inclusive
line ranges).  A source text that fails to parse is represented by the parse
result `none` (CPython raises `SyntaxError` there).
-/

namespace MLOps

/-- A top-level statement of a parsed source unit, carrying exactly the data
`context.py` and `smart_update.py` read from the corresponding `ast` node:

* `importStmt seg` — `ast.Import` / `ast.ImportFrom`; `seg` is
  `ast.get_source_segment(code, node)`, the exact source slice of the node
  (always present: statement nodes carry location attributes).
* `assign seg` — `ast.Assign`, with its source slice.
* `classDef seg` — `ast.ClassDef`, with its source slice.
* `funcDef name decoratorSegs returnsSeg lineno endLineno` — `ast.FunctionDef`:
  the function name, the source slices of its decorator expressions in order,
  the source slice of the return annotation when `node.returns` is present,
  and `node.lineno` / `node.end_lineno` (1-indexed, inclusive, decorator
  lines excluded, per CPython convention).
* `asyncFuncDef name decoratorSegs lineno endLineno` — `ast.AsyncFunctionDef`
  (the async branch of `extract_skeleton` never reads `node.returns`).
* `other lineno endLineno` — any other top-level statement kind; skipped by
  the extractor and by the mapper's function scan. -/
inductive Stmt : Type where
  | importStmt (seg : String)
  | assign (seg : String)
  | classDef (seg : String)
  | funcDef (name : String) (decoratorSegs : List String) (returnsSeg : Option String)
      (lineno endLineno : Nat)
  | asyncFuncDef (name : String) (decoratorSegs : List String) (lineno endLineno : Nat)
  | other (lineno endLineno : Nat)
deriving DecidableEq, Repr

/-- A parsed module: `ast.parse(code).body`, in source order. -/
abbrev Module := List Stmt

/-! ## Hunk-header parsing (`re.findall(r"^@@ -\d+,\d+ \+(\d+),(\d+) @@", diff, re.MULTILINE)`)

With `re.MULTILINE`, `^` matches at the start of the string and right after
every `'\n'`; the pattern contains no newline-matching atom, so each match
lies within one `'\n'`-separated segment and is anchored at its start.
`re.findall` therefore returns, for each segment whose *prefix* matches the
pattern, the pair of captured digit groups. -/

/-- Value of a nonempty digit run, most significant first (`int` of the match). -/
def natOfDigits (ds : List Char) : Nat :=
  ds.foldl (fun a c => a * 10 + (c.toNat - 48)) 0

/-- `\d+` at the head of the character stream: consumes a maximal nonempty
digit run (the regex's greedy match) and returns its value and the rest. -/
def readNat (cs : List Char) : Option (Nat × List Char) :=
  let ds := cs.takeWhile Char.isDigit
  if ds.isEmpty then none else some (natOfDigits ds, cs.dropWhile Char.isDigit)

/-- A literal atom of the pattern: consumes exactly `lit` or fails. -/
def readLit : List Char → List Char → Option (List Char)
  | [], cs => some cs
  | _ :: _, [] => none
  | l :: ls, c :: cs => if c = l then readLit ls cs else none

/-- Prefix-match of one `'\n'`-separated segment against
`@@ -\d+,\d+ \+(\d+),(\d+) @@` (anything may follow the final `@@`);
returns the two captured groups `(new-start, new-count)` as numbers. -/
def matchHunk (line : List Char) : Option (Nat × Nat) := do
  let cs ← readLit "@@ -".toList line
  let (_, cs) ← readNat cs
  let cs ← readLit ",".toList cs
  let (_, cs) ← readNat cs
  let cs ← readLit " +".toList cs
  let (start, cs) ← readNat cs
  let cs ← readLit ",".toList cs
  let (count, cs) ← readNat cs
  let _ ← readLit " @@".toList cs
  some (start, count)

/-- Split a character stream at every `'\n'` (Python `str.split("\n")`
semantics: `n` newlines produce `n + 1` segments, empty ones included). -/
def splitOnNl : List Char → List (List Char)
  | [] => [[]]
  | c :: cs =>
    match splitOnNl cs with
    | [] => if c = '\n' then [[], []] else [[c]]
    | l :: ls => if c = '\n' then [] :: l :: ls else (c :: l) :: ls

/-- The list `re.findall` produces over the whole diff text, in order:
one entry per `'\n'`-separated segment whose prefix matches the pattern. -/
def hunkHeaders (diff : String) : List (Nat × Nat) :=
  (splitOnNl diff.toList).filterMap matchHunk

/-- Lines one hunk marks as changed: `{start + i | i < count}` (the Python
loop `for i in range(int(count)): changed_lines.add(start + i)`). -/
def hunkLines (start count : Nat) : Finset Nat := Finset.Ico start (start + count)

/-- `changed_lines` after the hunk-parsing loop of `get_changed_functions`. -/
def changedLines (diff : String) : Finset Nat :=
  (hunkHeaders diff).foldr (fun p acc => hunkLines p.1 p.2 ∪ acc) ∅

/-! ## `get_changed_functions` (src/smart_update.py, lines 4–30) -/

/-- `(name, lineno, end_lineno)` when the statement is a top-level
`FunctionDef` / `AsyncFunctionDef`, else `none`. -/
def funcRange : Stmt → Option (String × Nat × Nat)
  | .funcDef n _ _ l e => some (n, l, e)
  | .asyncFuncDef n _ l e => some (n, l, e)
  | _ => none

/-- `set(range(node.lineno, node.end_lineno + 1))`: the function's inclusive
line range as a set. -/
def funcLines (l e : Nat) : Finset Nat := Finset.Icc l e

/-- The loop over `tree.body`: a function's name joins the result set exactly
when `not changed_lines.isdisjoint(func_lines)`, i.e. the two sets share an
element, i.e. their intersection is nonempty.  (The loop inserts into a set
in iteration order; as a set the order is immaterial, so we recurse
structurally over the statement list.) -/
def changedFunctions : Module → String → Finset String
  | [], _ => ∅
  | st :: rest, diff =>
    match funcRange st with
    | some (n, l, e) =>
        if changedLines diff ∩ funcLines l e ≠ ∅ then insert n (changedFunctions rest diff)
        else changedFunctions rest diff
    | none => changedFunctions rest diff

/-- Exceptions the two `smart_update.py` entry points can raise. -/
inductive PyExn : Type where
  | syntaxError
  | nameError (missing : String)
deriving DecidableEq, Repr

/-- Equality of call results (normal value or exception) is decidable. -/
instance {ε α : Type} [DecidableEq ε] [DecidableEq α] : DecidableEq (Except ε α) :=
  fun a b =>
    match a, b with
    | .ok a, .ok b =>
        if h : a = b then isTrue (by rw [h])
        else isFalse (by intro hh; cases hh; exact h rfl)
    | .error a, .error b =>
        if h : a = b then isTrue (by rw [h])
        else isFalse (by intro hh; cases hh; exact h rfl)
    | .ok _, .error _ => isFalse (fun hh => Except.noConfusion hh)
    | .error _, .ok _ => isFalse (fun hh => Except.noConfusion hh)

/-- `get_changed_functions(app_code, diff)`: the diff is scanned first (the
regex never raises), then `ast.parse(app_code)` runs *outside* any
`try`/`except`, so an unparsable source propagates `SyntaxError`; otherwise
the function returns the changed-function set.  The parse result of
`app_code` is the first argument (`none` = `SyntaxError`). -/
def get_changed_functions : Option Module → String → Except PyExn (Finset String)
  | none, _ => .error .syntaxError
  | some m, diff => .ok (changedFunctions m diff)

/-! ## `extract_skeleton` (src/context.py, lines 3–73) -/

/-- The value of `ast.get_source_segment(code, node.args)` in the two
function branches of `extract_skeleton`.  CPython's `ast.get_source_segment`
reads `node.lineno` / `node.end_lineno` / `node.col_offset` /
`node.end_col_offset` and returns `None` on `AttributeError`; `ast.arguments`
nodes carry *no* location attributes (they are an ASDL product type without
`attributes`), so this call returns `None` for every function, whatever its
parameter list is. -/
def argsSourceSegment : Option String := none

/-- Interpolation of a `get_source_segment` result into an f-string:
Python renders the object via `str`, and `str(None) = "None"`. -/
def pyFormat : Option String → String
  | none => "None"
  | some s => s

/-- The `skeleton_lines` entries one top-level statement contributes:

* imports / assignments / class definitions: their exact source slice;
* `FunctionDef`: the decorator block (the `"\n".join` of `"@" + dec_src`,
  appended only when `decorator_list` is nonempty), then
  `f"def {name}({args_src}):"` — or, when `node.returns` is present,
  `f"def {name}({args_src}) -> {ret_src}:"` — followed by `"\n    ..."`;
* `AsyncFunctionDef`: likewise with `async def`, and the branch never reads
  `node.returns`;
* any other statement kind: nothing. -/
def stmtBlocks : Stmt → List String
  | .importStmt seg => [seg]
  | .assign seg => [seg]
  | .classDef seg => [seg]
  | .funcDef name decs ret _ _ =>
      let sig :=
        match ret with
        | none => "def " ++ name ++ "(" ++ pyFormat argsSourceSegment ++ "):"
        | some r => "def " ++ name ++ "(" ++ pyFormat argsSourceSegment ++ ") -> " ++ r ++ ":"
      (if decs.isEmpty then [] else [String.intercalate "\n" (decs.map (fun d => "@" ++ d))])
        ++ [sig ++ "\n    ..."]
  | .asyncFuncDef name decs _ _ =>
      let sig := "async def " ++ name ++ "(" ++ pyFormat argsSourceSegment ++ "):"
      (if decs.isEmpty then [] else [String.intercalate "\n" (decs.map (fun d => "@" ++ d))])
        ++ [sig ++ "\n    ..."]
  | .other _ _ => []

/-- `skeleton_lines` after the loop over `tree.body`, in source order. -/
def skeletonLines : Module → List String
  | [] => []
  | st :: rest => stmtBlocks st ++ skeletonLines rest

/-- `extract_skeleton(code)`: `ast.parse` inside `try`/`except SyntaxError`
returning the sentinel on parse failure, else `"\n\n".join(skeleton_lines)`.
Every operation on the success path is non-raising (`get_source_segment`
returns a string or `None`, f-strings and `join` are total on the string
lists produced), so the embedding is a total function on parse results. -/
def extract_skeleton : Option Module → String
  | none => "Error parsing code skeleton."
  | some m => String.intercalate "\n\n" (skeletonLines m)

/-- The source slices of the top-level import statements, in source order. -/
def importSegments : Module → List String
  | [] => []
  | .importStmt seg :: rest => seg :: importSegments rest
  | _ :: rest => importSegments rest

/-! ## `update_test_file` (src/smart_update.py, lines 32–77)

The filesystem is an association list from paths to file contents;
`os.path.exists` + `open(..).read()` is lookup of the most recent write,
`open(.., "w").write(..)` prepends a binding.  `ast.parse` over the *test
file's* current contents is passed in as a parse function; the concrete
`parseOracle` below records CPython's output on the exact strings at which
the theorems evaluate it. -/

abbrev Fs := List (String × String)

/-- Content at `p`, or `none` when no file exists there. -/
def fsRead (fs : Fs) (p : String) : Option String := fs.lookup p

/-- Whole-file write (`open(path, "w") ... f.write(content)`). -/
def fsWrite (fs : Fs) (p content : String) : Fs := (p, content) :: fs

/-- Python `str.splitlines()` restricted to text whose only line terminator
is `'\n'` (true of every string this development evaluates it on): splits on
`'\n'` and drops the empty segment a trailing `'\n'` would produce;
`"".splitlines() == []`. -/
def pySplitlines (s : String) : List String :=
  match s.toList with
  | [] => []
  | cs =>
    let segs := splitOnNl cs
    let segs := if cs.getLast? = some '\n' then segs.dropLast else segs
    segs.map (fun l => (⟨l⟩ : String))

/-- Python `str.strip()` (no argument) on ASCII text: drop leading and
trailing characters from `" \t\n\r\v\f"`; only spaces and newlines occur in
the strings this development strips. -/
def isPyWs (c : Char) : Bool :=
  c = ' ' || c = '\t' || c = '\n' || c = '\r' || c = '\x0b' || c = '\x0c'

/-- `s.strip()`. -/
def pyStrip (s : String) : String :=
  ⟨((s.toList.dropWhile isPyWs).reverse.dropWhile isPyWs).reverse⟩

/-- The `for node in tree.body: ... break` search: the *first* top-level
`FunctionDef`/`AsyncFunctionDef` named `tfn`, as its `(lineno, end_lineno)`. -/
def findTestFunc : Module → String → Option (Nat × Nat)
  | [], _ => none
  | st :: rest, tfn =>
    match funcRange st with
    | some (n, l, e) => if n = tfn then some (l, e) else findTestFunc rest tfn
    | none => findTestFunc rest tfn

/-- Step 1 of `update_test_file`: inside `try`, parse the existing code and,
when a node named `tfn` is found, `del lines[lineno-1 : end_lineno]` over
`existing_code.splitlines()` and rejoin with `"\n".join`; on `SyntaxError`
(parse result `none`) print a warning and keep `existing_code` unchanged;
when no node matches, `existing_code` is also unchanged. -/
def removeTestFunc (parse : String → Option Module) (existing tfn : String) : String :=
  match parse existing with
  | none => existing
  | some m =>
    match findTestFunc m tfn with
    | none => existing
    | some (l, e) =>
      let lines := pySplitlines existing
      String.intercalate "\n" (lines.take (l - 1) ++ lines.drop e)

/-- The body of `update_test_file(test_file_path, new_test_code,
function_name)`: if the path does not exist, write `new_test_code` verbatim
and return; otherwise read the file, remove the first top-level function
named `"test_" + function_name`, and write
`existing.strip() + "\n\n" + new_test_code.strip()`. -/
def update_test_file (parse : String → Option Module) (fs : Fs)
    (test_file_path new_test_code function_name : String) : Fs :=
  match fsRead fs test_file_path with
  | none => fsWrite fs test_file_path new_test_code
  | some existing_code =>
    let test_func_name := "test_" ++ function_name
    let trimmed := removeTestFunc parse existing_code test_func_name
    let final_code := pyStrip trimmed ++ "\n\n" ++ pyStrip new_test_code
    fsWrite fs test_file_path final_code

/-- The import statements of `src/smart_update.py` (its lines 1–2): the
module namespace binds exactly `ast` and `re`.  The name `os`, evaluated at
lines 36 and 84, is bound neither here nor in builtins. -/
def smart_update_imports : List String := ["ast", "re"]

/-- One *call* of `update_test_file` as the module defines it: its first
statement evaluates `os.path.exists(test_file_path)`; Python resolves `os`
in the module namespace and builtins, finds no binding, and raises
`NameError` before any filesystem access.  Were `os` bound (i.e. had the
module imported it), the body `update_test_file` would run. -/
def update_test_file_run (parse : String → Option Module) (fs : Fs)
    (p x n : String) : Except PyExn Fs :=
  if "os" ∈ smart_update_imports then .ok (update_test_file parse fs p x n)
  else .error (.nameError "os")

/-- The filesystem left behind by one call of `update_test_file` as the
module defines it: a call that completes leaves the filesystem its body
produced, while a call that raises propagates the exception to the caller
having performed no write, leaving the filesystem as it was. -/
def update_test_file_fsAfter (parse : String → Option Module) (fs : Fs)
    (p x n : String) : Fs :=
  match update_test_file_run parse fs p x n with
  | .ok fs' => fs'
  | .error _ => fs

/-! ## Concrete fixtures

Each fixture is the CPython parse of a stated concrete source text; a
reviewer can re-derive the line numbers by counting lines of the text. -/

/-- `ast.parse` of `"x = 0\ndef foo(a):\n    y = a\n    y = y + 1\n    return y\ndef bar(b):\n    z = b\n    z = z + 1\n    return z"`:
an assignment on line 1, `foo` spanning lines 2–5, `bar` spanning lines 6–9. -/
def fooBarModule : Module :=
  [.assign "x = 0", .funcDef "foo" [] none 2 5, .funcDef "bar" [] none 6 9]

/-- `ast.parse` of `"x = 0\nx = 1\nx = 2\nx = 3\ndef f(a):\n    return a"`:
four assignments, then `f` spanning lines 5–6. -/
def fModule : Module := [.assign "x = 0", .assign "x = 1", .assign "x = 2",
  .assign "x = 3", .funcDef "f" [] none 5 6]

/-- `ast.parse("def sample(a, b=1):\n    return a + b").body`: a single
`FunctionDef` named `sample`, no decorators, no return annotation,
`lineno = 1`, `end_lineno = 2`. -/
def sampleModule : Module := [.funcDef "sample" [] none 1 2]

/-- The new-test-code string of the patcher scenarios:
`"def test_foo():\n    assert True"`. -/
def newTestCode : String := "def test_foo():\n    assert True"

/-- `ast.parse` restricted to the exact test-file contents produced in the
patcher theorems below, recording CPython's output there:

* on `"def test_foo():\n    assert True"` it yields one `FunctionDef`
  `test_foo` with `lineno = 1`, `end_lineno = 2`;
* on `"\n\ndef test_foo():\n    assert True"` (two leading blank lines) the
  same `FunctionDef` with `lineno = 3`, `end_lineno = 4`;
* it is never evaluated elsewhere in those theorems. -/
def parseOracle (s : String) : Option Module :=
  if s = "def test_foo():\n    assert True" then
    some [.funcDef "test_foo" [] none 1 2]
  else if s = "\n\ndef test_foo():\n    assert True" then
    some [.funcDef "test_foo" [] none 3 4]
  else none

/-! ## Helper lemmas -/

/-- A changed-line fold over headers all of whose new-counts are zero is
empty: `range(0)` adds nothing. -/
theorem foldr_hunkLines_eq_empty (L : List (Nat × Nat)) (h : ∀ p ∈ L, p.2 = 0) :
    L.foldr (fun p acc => hunkLines p.1 p.2 ∪ acc) ∅ = ∅ := by
  induction L with
  | nil => rfl
  | cons p L ih =>
    have hp : p.2 = 0 := h p (List.mem_cons_self p L)
    have hL : ∀ q ∈ L, q.2 = 0 := fun q hq => h q (List.mem_cons_of_mem p hq)
    show hunkLines p.1 p.2 ∪ _ = ∅
    rw [ih hL, hp]
    simp [hunkLines]

/-- When the changed-line set is empty, no function range can meet it, so
the loop over `tree.body` adds nothing. -/
theorem changedFunctions_eq_empty (m : Module) (diff : String)
    (h : changedLines diff = ∅) : changedFunctions m diff = ∅ := by
  induction m with
  | nil => rfl
  | cons st rest ih =>
    cases hst : funcRange st with
    | none => simpa [changedFunctions, hst] using ih
    | some p =>
      obtain ⟨n, l, e⟩ := p
      simp [changedFunctions, hst, h, ih]

/-- Membership in the mapper's result set is exactly range intersection. -/
theorem mem_changedFunctions (m : Module) (diff : String) (n : String) :
    n ∈ changedFunctions m diff ↔
      ∃ st ∈ m, ∃ l e, funcRange st = some (n, l, e) ∧
        changedLines diff ∩ funcLines l e ≠ ∅ := by
  induction m with
  | nil => simp [changedFunctions]
  | cons st rest ih =>
    cases hst : funcRange st with
    | none =>
      simp only [changedFunctions, hst, ih, List.mem_cons]
      constructor
      · rintro ⟨st', hmem, hrest⟩
        exact ⟨st', Or.inr hmem, hrest⟩
      · rintro ⟨st', hmem | hmem, l, e, hfr, hover⟩
        · rw [hmem, hst] at hfr; cases hfr
        · exact ⟨st', hmem, l, e, hfr, hover⟩
    | some p =>
      obtain ⟨n', l', e'⟩ := p
      by_cases hover : changedLines diff ∩ funcLines l' e' ≠ ∅
      · simp only [changedFunctions, hst, if_pos hover, Finset.mem_insert, ih, List.mem_cons]
        constructor
        · rintro (rfl | ⟨st', hmem, hrest⟩)
          · exact ⟨st, Or.inl rfl, l', e', hst, hover⟩
          · exact ⟨st', Or.inr hmem, hrest⟩
        · rintro ⟨st', hmem | hmem, l, e, hfr, hov⟩
          · subst hmem
            rw [hst] at hfr
            obtain ⟨h1, h2, h3⟩ : n' = n ∧ l' = l ∧ e' = e := by simpa using hfr
            exact Or.inl h1.symm
          · exact Or.inr ⟨st', hmem, l, e, hfr, hov⟩
      · simp only [changedFunctions, hst, if_neg hover, ih, List.mem_cons]
        constructor
        · rintro ⟨st', hmem, hrest⟩
          exact ⟨st', Or.inr hmem, hrest⟩
        · rintro ⟨st', hmem | hmem, l, e, hfr, hov⟩
          · subst hmem
            rw [hst] at hfr
            obtain ⟨h1, rfl, rfl⟩ : n' = n ∧ l' = l ∧ e' = e := by simpa using hfr
            exact absurd hov hover
          · exact ⟨st', hmem, l, e, hfr, hov⟩

/-! ## The claims -/

/-- C1: the claim says no core operation ever raises.  The code disagrees:
`smart_update.py` imports only `ast` and `re`, so every call of
`update_test_file` raises `NameError` at its first statement
(`os.path.exists`), whatever its arguments are; and `get_changed_functions`
calls `ast.parse(app_code)` outside any `try`, so a syntactically invalid
source (e.g. `"def ("`, parse result `none`) propagates `SyntaxError`. -/
theorem c1_core_ops_do_raise :
    (∀ (parse : String → Option Module) (fs : Fs) (p x n : String),
        update_test_file_run parse fs p x n = .error (.nameError "os"))
      ∧ get_changed_functions none "" = .error .syntaxError := by
  refine ⟨fun parse fs p x n => ?_, rfl⟩
  rw [update_test_file_run, if_neg (by decide)]

/-- C2: the claim says patching a nonexistent path writes the new code `X`
as the whole file, so reading back returns exactly `X`.  The function *body*
does exactly that (third conjunct), but the call as the module defines it
raises `NameError` on the unbound name `os` before reaching the write
(second conjunct), so the claimed read-back never happens. -/
theorem c2_fresh_path_write :
    fsRead ([] : Fs) "test_app.py" = none
      ∧ update_test_file_run parseOracle [] "test_app.py" newTestCode "foo"
          = .error (.nameError "os")
      ∧ fsRead (update_test_file parseOracle [] "test_app.py" newTestCode "foo")
          "test_app.py" = some newTestCode := by
  refine ⟨rfl, ?_, rfl⟩
  rw [update_test_file_run, if_neg (by decide)]

/-- C3: the claim says the skeleton of `"def sample(a, b=1):\n    return a + b"`
contains a signature line with exactly `sample(a, b=1)`.  In fact
`ast.get_source_segment(code, node.args)` is `None` (arguments nodes carry no
location attributes), so the emitted block is literally
`"def sample(None):\n    ..."`: the parameter list is lost, replaced by the
text `None`.  The placeholder line and the absence of the body are as
claimed. -/
theorem c3_sample_skeleton_drops_args :
    extract_skeleton (some sampleModule) = "def sample(None):\n    ..." := rfl

/-- C4 (counterexample): the claim says a count-less hunk header such as
`@@ -3 +5 @@` defaults to count 1, recording new-start line 5 as changed —
so the function `f` spanning lines 5–6 of the `fModule` source would be
returned.  In fact the pattern requires both counts, the header does not
match, line 5 is not recorded, and the result is empty. -/
theorem c4_short_hunk_counterexample :
    5 ∉ changedLines "@@ -3 +5 @@"
      ∧ get_changed_functions (some fModule) "@@ -3 +5 @@" = .ok ∅ := by
  exact ⟨by decide, by decide⟩

/-- C4 (amended): a hunk header in the short count-less form is not matched
by `get_changed_functions`' pattern and contributes no changed lines; a diff
consisting only of such a header therefore yields the empty result set for
every parsed source. -/
theorem c4_short_hunk_ignored (m : Module) :
    hunkHeaders "@@ -3 +5 @@" = []
      ∧ get_changed_functions (some m) "@@ -3 +5 @@" = .ok ∅ := by
  refine ⟨by decide, ?_⟩
  show Except.ok (changedFunctions m "@@ -3 +5 @@") = Except.ok ∅
  rw [changedFunctions_eq_empty m _ (by decide)]

/-- C5: a function name is in the mapper's result iff the inclusive range
`[lineno, end_lineno]` of a top-level (async) function of that name meets
the changed-line set; concretely, for diff `@@ -1,1 +3,1 @@` against the
source with `foo` on lines 2–5 and `bar` on lines 6–9, the result is exactly
`{"foo"}`. -/
theorem c5_overlap_iff :
    (∀ (m : Module) (diff : String) (n : String),
        n ∈ changedFunctions m diff ↔
          ∃ st ∈ m, ∃ l e, funcRange st = some (n, l, e) ∧
            changedLines diff ∩ funcLines l e ≠ ∅)
      ∧ get_changed_functions (some fooBarModule) "@@ -1,1 +3,1 @@" = .ok {"foo"} :=
  ⟨mem_changedFunctions, by decide⟩

/-- C6: on a source that fails to parse, `extract_skeleton` returns exactly
the sentinel `"Error parsing code skeleton."` and nothing else; on every
parsed source it returns normally, namely the `"\n\n"`-join of the per-
statement skeleton blocks (every operation on that path is total). -/
theorem c6_parse_failure_sentinel :
    extract_skeleton none = "Error parsing code skeleton."
      ∧ ∀ m : Module, extract_skeleton (some m) =
          String.intercalate "\n\n" (skeletonLines m) :=
  ⟨rfl, fun _ => rfl⟩

/-- C7: each top-level import statement contributes its exact source slice
as one skeleton block, and the slices occur among the skeleton's blocks as a
sublist — byte-for-byte and in source order. -/
theorem c7_imports_preserved :
    (∀ seg : String, stmtBlocks (.importStmt seg) = [seg])
      ∧ ∀ m : Module, List.Sublist (importSegments m) (skeletonLines m) := by
  refine ⟨fun _ => rfl, fun m => ?_⟩
  induction m with
  | nil => exact List.Sublist.refl []
  | cons st rest ih =>
    cases st with
    | importStmt seg => exact List.Sublist.cons₂ seg ih
    | assign seg => exact ih.trans (List.sublist_append_right _ _)
    | classDef seg => exact ih.trans (List.sublist_append_right _ _)
    | funcDef name decs ret l e => exact ih.trans (List.sublist_append_right _ _)
    | asyncFuncDef name decs l e => exact ih.trans (List.sublist_append_right _ _)
    | other l e => exact ih.trans (List.sublist_append_right _ _)

/-- C8 (counterexample): the claim says the empty diff yields the empty set
*whatever the source text is*.  For the syntactically invalid source
`"def ("` (parse result `none`) the call instead propagates `SyntaxError`
from `ast.parse`, so it does not return the empty set. -/
theorem c8_invalid_source_counterexample :
    get_changed_functions none "" = .error .syntaxError
      ∧ get_changed_functions none "" ≠ .ok (∅ : Finset String) :=
  ⟨rfl, by decide⟩

/-- C8 (amended): for every *syntactically valid* source text, a diff with
no line matching the hunk-header pattern — in particular the empty diff —
yields the empty result set, and this case is not an error. -/
theorem c8_headerless_diff_empty (m : Module) (diff : String)
    (h : hunkHeaders diff = []) : get_changed_functions (some m) diff = .ok ∅ := by
  show Except.ok (changedFunctions m diff) = Except.ok ∅
  rw [changedFunctions_eq_empty m diff (by rw [changedLines, h]; rfl)]

/-- Witness for the C8 amended theorem at the empty diff and a concrete
parsed source. -/
theorem c8_headerless_diff_empty_witness :
    hunkHeaders "" = []
      ∧ get_changed_functions (some fooBarModule) "" = .ok ∅ :=
  ⟨by decide, c8_headerless_diff_empty fooBarModule "" (by decide)⟩

/-- C9: running `update_test_file` twice in succession leaves the file at
the given path with content identical to running it once — for *every*
(path, new-code, function-name) triple.  On the module as shipped this
holds degenerately: every call raises `NameError` on the unbound name `os`
before any filesystem access (first conjunct), so neither the first nor the
second call writes anything, and the content at the path after two calls is
the content after one call, namely the original content (second conjunct). -/
theorem c9_idempotent_on_shipped_module :
    (∀ (parse : String → Option Module) (fs : Fs) (p x n : String),
        update_test_file_run parse fs p x n = .error (.nameError "os"))
      ∧ ∀ (parse : String → Option Module) (fs : Fs) (p x n : String),
          fsRead (update_test_file_fsAfter parse
              (update_test_file_fsAfter parse fs p x n) p x n) p
            = fsRead (update_test_file_fsAfter parse fs p x n) p := by
  constructor
  · intro parse fs p x n
    rw [update_test_file_run, if_neg (by decide)]
  · intro parse fs p x n
    have h : ∀ gs : Fs, update_test_file_fsAfter parse gs p x n = gs := by
      intro gs
      unfold update_test_file_fsAfter update_test_file_run
      rw [if_neg (by decide)]
    rw [h, h]

/-- C10: a hunk whose new-side count is 0 contributes no line numbers
(`range(0)` is empty), so a diff all of whose matching headers carry
new-count 0 yields the empty result set for every parsed source. -/
theorem c10_zero_count_hunks :
    (∀ s : Nat, hunkLines s 0 = ∅)
      ∧ ∀ (m : Module) (diff : String), (∀ p ∈ hunkHeaders diff, p.2 = 0) →
          get_changed_functions (some m) diff = .ok ∅ := by
  refine ⟨fun s => by simp [hunkLines], fun m diff h => ?_⟩
  show Except.ok (changedFunctions m diff) = Except.ok ∅
  rw [changedFunctions_eq_empty m diff (foldr_hunkLines_eq_empty _ h)]

/-- Witness for C10 at the deletion-only diff `@@ -5,2 +4,0 @@` and a
concrete parsed source. -/
theorem c10_zero_count_hunks_witness :
    (∀ p ∈ hunkHeaders "@@ -5,2 +4,0 @@", p.2 = 0)
      ∧ get_changed_functions (some fooBarModule) "@@ -5,2 +4,0 @@" = .ok ∅ :=
  ⟨by decide, c10_zero_count_hunks.2 fooBarModule "@@ -5,2 +4,0 @@" (by decide)⟩

end MLOps
